import Mathlib

/-!
# go-mongo-etl: the oplog tailer (`oplogtailer/oplogtailer.go`)

A shallow embedding of `NewOpLogTailer` and `OpLogTailer.Start`.

* int64 values (`bson.MongoTimestamp`, `time.Now().Unix()`) are `Int`s, with the
  wrap-around of `<<` made explicit;
* the checkpoint collection `mongotailer.oplogtailerinfo` is a list of documents in
  natural (insertion) order;
* `Start` and the goroutines it launches are one interleaving transition system: a
  step is one action of the reading loop or of one background task.

The mgo driver is not part of the repository. Its calls are embedded by what its
documentation says they do: `Query.Count`, `Query.One`, `Collection.Insert`,
`Collection.Update`, `Iter.Next`, `Iter.Err`, `Iter.Timeout`, `Iter.Close`. Each of
them can fail; where the code discards the error, the embedding goes on as the code does.
-/

namespace oplogtailer

/-! ## int64 arithmetic -/

/-- The type `bson.MongoTimestamp` is an `int64`. -/
abbrev MongoTimestamp := Int

/-- Reduction of an integer to the int64 range, as Go arithmetic wraps. -/
def wrapInt64 (x : Int) : Int := (x + 2 ^ 63) % 2 ^ 64 - 2 ^ 63

/-- Go `x << k` on an int64. -/
def shl64 (x : Int) (k : Nat) : Int := wrapInt64 (x * 2 ^ k)

/-- Go `x >> k` on an int64: the arithmetic shift. -/
def shr64 (x : Int) (k : Nat) : Int := x >>> k

/-- The verb `%+v` of `fmt.Sprintf` at an integer: its decimal digits, with a minus sign
when negative (the plus flag of `%v` only selects field names for structs). -/
def fmtInt (x : Int) : String :=
  match x with
  | Int.ofNat n => Nat.repr n
  | Int.negSucc n => "-" ++ Nat.repr (n + 1)

/-! ## Data model -/

/-- A `bson.M` document, kept as its list of fields. -/
abbrev bsonM := List (String × String)

/-- How `fmt.Sprintf` renders a `bson.M` under `%s` and under `%+v`. -/
structure Fmt where
  sM : bsonM → String
  plusvM : bsonM → String

/-- Result set from the oplog tailer (`OpLoggerEvent`). -/
structure OpLoggerEvent where
  Ts : String
  ID : String
  Data : String
  Ns : String
  Op : String
deriving DecidableEq, Repr

/-- The document kept per tailed collection and label (`opLogTailerInfo`). -/
structure opLogTailerInfo where
  FilterRegex : String
  StartReadingFromTime : MongoTimestamp
  Label : String
deriving DecidableEq, Repr

/-- One entry of `local.oplog.rs` (`opLogEntry`). -/
structure opLogEntry where
  Ts : MongoTimestamp
  H : Int
  V : Int
  Op : String
  Ns : String
  O : bsonM
  O2 : bsonM
deriving DecidableEq, Repr

/-- A call made on the registered `OpLogger`. -/
inductive HandlerCall where
  | OnDelete (event : OpLoggerEvent)
  | OnUpdate (event : OpLoggerEvent)
  | OnInsert (event : OpLoggerEvent)
  | OnCmd (event : OpLoggerEvent)
  | OnNoop (event : OpLoggerEvent)
  | OnUnknown (event : OpLoggerEvent)
deriving DecidableEq, Repr

/-- The event a handler call carries. -/
def HandlerCall.event : HandlerCall → OpLoggerEvent
  | .OnDelete e => e
  | .OnUpdate e => e
  | .OnInsert e => e
  | .OnCmd e => e
  | .OnNoop e => e
  | .OnUnknown e => e

/-! ## The event-routing task of `Start` (lines 207-238) -/

/-- The `OpLoggerEvent` literal of the event-routing task; `%s` at a string is the
string itself. -/
def mkEvent (fm : Fmt) (result : opLogEntry) : OpLoggerEvent :=
  { Ts := fmtInt (shr64 result.Ts 32)
    ID := fm.sM result.O2
    Data := fm.plusvM result.O
    Ns := result.Ns
    Op := result.Op }

/-- The handler calls the event-routing task makes, in order: the `switch result.Op`. -/
def routeTask (fm : Fmt) (result : opLogEntry) : List HandlerCall :=
  let event := mkEvent fm result
  if result.Op = "u" then [HandlerCall.OnUpdate event]
  else if result.Op = "i" then [HandlerCall.OnInsert event]
  else if result.Op = "d" then [HandlerCall.OnDelete event]
  else if result.Op = "c" then [HandlerCall.OnCmd event]
  else if result.Op = "n" then [HandlerCall.OnNoop event]
  else [HandlerCall.OnUnknown event]

/-! ## The checkpoint collection -/

/-- The collection `mongotailer.oplogtailerinfo`, in natural order. -/
abbrev Collection := List opLogTailerInfo

/-- The selector `$and [filterRegex = .., label = ..]`. -/
structure InfoSelector where
  filterRegex : String
  label : String
deriving DecidableEq, Repr

/-- The selector of `buildOpLogTailerInfoSelector`, read off the global `tailerInfo`. -/
def buildOpLogTailerInfoSelector (tailerInfo : opLogTailerInfo) : InfoSelector :=
  { filterRegex := tailerInfo.FilterRegex, label := tailerInfo.Label }

/-- A document satisfies the selector when both fields are equal to the selector's. -/
def InfoSelector.selects (sel : InfoSelector) (doc : opLogTailerInfo) : Bool :=
  decide (doc.FilterRegex = sel.filterRegex) && decide (doc.Label = sel.label)

/-- The driver's `Query.Count`: the number of documents the selector selects. -/
def queryCount (coll : Collection) (sel : InfoSelector) : Nat :=
  (coll.filter sel.selects).length

/-- The driver's `Query.One`: the first selected document. The answer is `none` when
the call returns an error, be it the driver's `err` or `ErrNotFound` when no document is
selected; the destination is then left as it was. -/
def queryOne (err : Option String) (coll : Collection) (sel : InfoSelector) :
    Option opLogTailerInfo :=
  match err with
  | some _ => none
  | none => coll.find? sel.selects

/-- The driver's `Collection.Insert`, with the error it returns: on an error nothing is
stored. -/
def collInsert (err : Option String) (coll : Collection) (doc : opLogTailerInfo) :
    Collection × Option String :=
  match err with
  | some e => (coll, some e)
  | none => (coll ++ [doc], none)

/-- The driver's `Collection.Update` with a replacement document: the first selected
document is replaced; the flag is false when none is selected (`ErrNotFound`). -/
def collUpdate : Collection → InfoSelector → opLogTailerInfo → Collection × Bool
  | [], _, _ => ([], false)
  | d :: ds, sel, doc =>
    if sel.selects d then (doc :: ds, true)
    else ((collUpdate ds sel doc).1.cons d, (collUpdate ds sel doc).2)

/-! ## `NewOpLogTailer` (lines 84-152) -/

/-- What the environment answers during `NewOpLogTailer`. -/
structure Driver where
  /-- whether `mgo.ParseURL` yields a dial description (nil otherwise) -/
  parseURL : Bool
  /-- the error of `mgo.DialWithInfo`; the session is nil exactly when there is one -/
  dialErr : Option String
  /-- the error of `query.Count()` -/
  countErr : Option String
  /-- the error of `tailerInfoCollection.Insert(tailerInfo)` -/
  insertErr : Option String
  /-- the error of `query.One(&tailerInfo)` other than `ErrNotFound` -/
  oneErr : Option String
  /-- the value of `time.Now().Unix()` -/
  nowUnix : Int
deriving DecidableEq, Repr

/-- The three `log.Fatalf` calls of `NewOpLogTailer`. -/
inductive FatalMsg where
  | cantOpenSession
  | errorGettingCount
  | moreThanOneDocument
deriving DecidableEq, Repr

/-- How a call of `NewOpLogTailer` ends, with the collection it leaves behind. -/
inductive Outcome where
  /-- a nil pointer dereference at the named expression -/
  | panicked (site : String) (coll : Collection)
  /-- the process exits through `log.Fatalf` -/
  | fatal (msg : FatalMsg) (coll : Collection)
  /-- the tailer is returned; the global `tailerInfo` has the given value -/
  | returned (coll : Collection) (tailerInfo : opLogTailerInfo)
deriving DecidableEq, Repr

/-- The function `NewOpLogTailer`, statement by statement. -/
def NewOpLogTailer (d : Driver) (coll : Collection) (filterRegex label : String) : Outcome :=
  -- mi, _ := mgo.ParseURL(*url); mi.Database = mgoAuthDb
  if d.parseURL = false then Outcome.panicked "mi.Database" coll
  else
    -- session, err = mgo.DialWithInfo(mi)
    let sessionIsNil : Bool := d.dialErr.isSome
    let err := d.dialErr
    -- session.SetMode(mgo.Strong, true): locks the mutex inside the session
    if sessionIsNil then Outcome.panicked "session.SetMode" coll
    else if err.isSome then Outcome.fatal FatalMsg.cantOpenSession coll
    else
      let tailerInfo : opLogTailerInfo :=
        { FilterRegex := filterRegex
          StartReadingFromTime := shl64 d.nowUnix 32
          Label := label }
      let sel := buildOpLogTailerInfoSelector tailerInfo
      let count := queryCount coll sel
      if d.countErr.isSome then Outcome.fatal FatalMsg.errorGettingCount coll
      else if count > 1 then Outcome.fatal FatalMsg.moreThanOneDocument coll
      else if count = 0 then
        -- tailerInfoCollection.Insert(tailerInfo): the error is discarded
        Outcome.returned (collInsert d.insertErr coll tailerInfo).1 tailerInfo
      else
        -- query.One(&tailerInfo): the error is discarded
        match queryOne d.oneErr coll sel with
        | some doc => Outcome.returned coll doc
        | none => Outcome.returned coll tailerInfo

/-! ## `Start` (lines 177-262) -/

/-- The selector `$and [ts > .., ns =~ ..]` over the oplog. -/
structure OplogSelector where
  tsGt : MongoTimestamp
  nsRegex : String
deriving DecidableEq, Repr

/-- The selector of `buildOpLogSelector`, read off the global `tailerInfo`. -/
def buildOpLogSelector (tailerInfo : opLogTailerInfo) : OplogSelector :=
  { tsGt := tailerInfo.StartReadingFromTime, nsRegex := tailerInfo.FilterRegex }

/-- An entry satisfies the selector when its timestamp is strictly greater than the
bound and its namespace matches the regular expression (`rx` is the server's matcher). -/
def OplogSelector.admits (rx : String → String → Bool) (sel : OplogSelector)
    (e : opLogEntry) : Bool :=
  decide (sel.tsGt < e.Ts) && rx sel.nsRegex e.Ns

/-- A tailing cursor (`mgo.Iter`). -/
structure Iter where
  /-- the number of cursors opened before this one -/
  serial : Nat
  /-- the selector the cursor was opened with -/
  sel : OplogSelector
  /-- the argument of `Tail`, in seconds (`-1`: wait forever) -/
  tailSeconds : Int
  /-- the error the cursor has met, if any -/
  err : Option String
  /-- whether the last `Next` gave up on the idle timeout -/
  timedOut : Bool
  closed : Bool
deriving DecidableEq, Repr

/-- The driver's `Iter.Err`. -/
def Iter.Err (it : Iter) : Option String := it.err

/-- The driver's `Iter.Timeout`. -/
def Iter.Timeout (it : Iter) : Bool := it.timedOut

/-- The driver's `Iter.Close`: the cursor is killed and the result is nil if no error
happened during iteration, the actual error otherwise. -/
def Iter.Close (it : Iter) : Iter × Option String :=
  ({ it with closed := true }, it.err)

/-- Where a checkpoint-advance task (lines 194-204) stands. -/
inductive AdvancePc where
  /-- before `tailerInfo.StartReadingFromTime = result.Ts` -/
  | assign
  /-- before `tailerInfoCollection.Update(..)` -/
  | update
  /-- before the deferred `controlCh <- 0` -/
  | release
deriving DecidableEq, Repr

/-- A launched background task that has not yet returned its token. The
checkpoint-advance closure has no parameter: it reads the variable `result` of `Start`.
The event-routing closure receives its own copy of the entry. -/
inductive Task where
  | advance (pc : AdvancePc)
  | route (result : opLogEntry) (called : Bool)
deriving DecidableEq, Repr

/-- Where the reading loop of `Start` stands. -/
inductive ReaderPc where
  /-- at `iter.Next(&result)` -/
  | next
  /-- at the first `_ = <-controlCh` (line 193) -/
  | takeAdvance
  /-- at the second `_ = <-controlCh` (line 206) -/
  | takeRoute
  /-- after `return`, with the error returned (`none` is nil) -/
  | returned (err : Option String)
deriving DecidableEq, Repr

/-- The state of a run of `Start`: the package globals, the locals of `Start`, the
launched tasks, and a record of what has happened so far. -/
structure State where
  tailerInfo : opLogTailerInfo
  coll : Collection
  iter : Iter
  controlCh : List Int
  result : opLogEntry
  pc : ReaderPc
  tasks : List Task
  /-- the handler calls made so far -/
  calls : List HandlerCall
  /-- the entries the cursors have yielded so far -/
  yielded : List opLogEntry
  /-- the values assigned to `tailerInfo.StartReadingFromTime` so far -/
  assigned : List MongoTimestamp
  /-- the values of `startReadingFromTime` written by a successful `Update` so far -/
  persisted : List MongoTimestamp
deriving DecidableEq, Repr

/-- The loop `for i := 0; i < 100; i++ { controlCh <- 1 }` on the empty channel. -/
def fillControlCh : List Int :=
  (List.range 100).foldl (fun ch _ => ch ++ [1]) []

/-- The capacity of `make(chan int, 100)`. -/
def controlChCap : Nat := 100

/-- The zero value of `var result opLogEntry`. -/
def zeroEntry : opLogEntry :=
  { Ts := 0, H := 0, V := 0, Op := "", Ns := "", O := [], O2 := [] }

/-- The state of `Start` on reaching its `for` loop. -/
def startInit (tailerInfo : opLogTailerInfo) (coll : Collection) : State :=
  { tailerInfo := tailerInfo
    coll := coll
    iter :=
      { serial := 0, sel := buildOpLogSelector tailerInfo, tailSeconds := -1
        err := none, timedOut := false, closed := false }
    controlCh := fillControlCh
    result := zeroEntry
    pc := ReaderPc.next
    tasks := []
    calls := []
    yielded := []
    assigned := []
    persisted := [] }

/-- The assignment `tailerInfo.StartReadingFromTime = result.Ts`. -/
def advanceAssign (tailerInfo : opLogTailerInfo) (result : opLogEntry) : opLogTailerInfo :=
  { tailerInfo with StartReadingFromTime := result.Ts }

/-- The call `tailerInfoCollection.Update(bson.M{filterRegex, label}, tailerInfo)`. -/
def advanceUpdate (tailerInfo : opLogTailerInfo) (coll : Collection) : Collection × Bool :=
  collUpdate coll
    { filterRegex := tailerInfo.FilterRegex, label := tailerInfo.Label } tailerInfo

/-- One action of a run of `Start`. -/
inductive Label where
  /-- the call `iter.Next(&result)` yields an entry -/
  | nextEntry (e : opLogEntry)
  /-- the call `iter.Next(&result)` is false; the cursor then reports `err` and `timeout`.
  When it fails with an error, the driver may already have unmarshalled a document into
  `result`: `decoded` is what `result` then holds (a failure document of the server has
  none of the fields of an entry and leaves the zero entry) -/
  | nextFalse (err : Option String) (timeout : Bool) (decoded : Option opLogEntry)
  /-- the reading loop receives from `controlCh` and launches the task that follows -/
  | launch
  /-- the task at this position performs its next action -/
  | task (i : Nat)
  /-- the `Update` of the checkpoint-advance task at this position fails in the driver -/
  | updateFails (i : Nat)
deriving DecidableEq, Repr

/-- The next action of the background task at position `i`. -/
def stepTask (fm : Fmt) (s : State) (i : Nat) : Option State :=
  match s.tasks.get? i with
  | none => none
  | some (Task.advance AdvancePc.assign) =>
    some { s with
      tailerInfo := advanceAssign s.tailerInfo s.result
      tasks := s.tasks.set i (Task.advance AdvancePc.update)
      assigned := s.assigned ++ [s.result.Ts] }
  | some (Task.advance AdvancePc.update) =>
    let u := advanceUpdate s.tailerInfo s.coll
    some { s with
      coll := u.1
      tasks := s.tasks.set i (Task.advance AdvancePc.release)
      persisted :=
        if u.2 then s.persisted ++ [s.tailerInfo.StartReadingFromTime] else s.persisted }
  | some (Task.route r false) =>
    some { s with
      calls := s.calls ++ routeTask fm r
      tasks := s.tasks.set i (Task.route r true) }
  | some (Task.advance AdvancePc.release) | some (Task.route _ true) =>
    -- the deferred `controlCh <- 0`, which blocks while the channel is full
    if s.controlCh.length < controlChCap then
      some { s with controlCh := s.controlCh ++ [0], tasks := s.tasks.eraseIdx i }
    else none

/-- The action `l` in state `s`; `none` when it cannot take place there. The only way
out of the `for` loop is the `return iter.Close()` of line 243: the loop has no `break`,
so the receive loop of lines 257-259 is never reached. -/
def step (fm : Fmt) (s : State) : Label → Option State
  | Label.nextEntry e =>
    if s.pc = ReaderPc.next then
      some { s with result := e, pc := ReaderPc.takeAdvance, yielded := s.yielded ++ [e] }
    else none
  | Label.nextFalse err timeout decoded =>
    if s.pc = ReaderPc.next then
      let it : Iter := { s.iter with err := err, timedOut := timeout }
      if it.Err.isSome then
        -- return iter.Close(); `result` holds what the failing `Next` left in it
        some { s with
          iter := it.Close.1
          pc := ReaderPc.returned it.Close.2
          result := decoded.getD s.result }
      else if it.Timeout then
        -- continue
        some { s with iter := it }
      else
        -- iter = collection.Find(buildOpLogSelector()).Sort("$natural").Tail(5s)
        some { s with
          iter :=
            { serial := s.iter.serial + 1, sel := buildOpLogSelector s.tailerInfo
              tailSeconds := 5, err := none, timedOut := false, closed := false } }
    else none
  | Label.launch =>
    match s.pc, s.controlCh with
    | ReaderPc.takeAdvance, _ :: ch =>
      some { s with
        controlCh := ch
        tasks := s.tasks ++ [Task.advance AdvancePc.assign]
        pc := ReaderPc.takeRoute }
    | ReaderPc.takeRoute, _ :: ch =>
      some { s with
        controlCh := ch
        tasks := s.tasks ++ [Task.route s.result false]
        pc := ReaderPc.next }
    | _, _ => none
  | Label.task i => stepTask fm s i
  | Label.updateFails i =>
    -- line 200 discards the error: nothing is written and the task goes on to its end
    match s.tasks.get? i with
    | some (Task.advance AdvancePc.update) =>
      some { s with tasks := s.tasks.set i (Task.advance AdvancePc.release) }
    | _ => none

/-- The state after a sequence of actions, when each can take place. -/
def run (fm : Fmt) : State → List Label → Option State
  | s, [] => some s
  | s, l :: ls =>
    match step fm s l with
    | some s1 => run fm s1 ls
    | none => none

/-- Whether the action, when it is a cursor yielding an entry, yields one that satisfies
the selector the current cursor was opened with. -/
def honest (rx : String → String → Bool) (s : State) : Label → Bool
  | Label.nextEntry e => s.iter.sel.admits rx e
  | _ => true

/-- Whether every entry a cursor yields along the actions satisfies the selector that
cursor was opened with. -/
def honestRun (rx : String → String → Bool) (fm : Fmt) : State → List Label → Bool
  | _, [] => true
  | s, l :: ls =>
    honest rx s l &&
    (match step fm s l with
      | some s1 => honestRun rx fm s1 ls
      | none => true)

/-- At most one document of the collection per pair of filter and label. -/
def AtMostOnePerKey (coll : Collection) : Prop :=
  ∀ filterRegex label : String,
    queryCount coll { filterRegex := filterRegex, label := label } ≤ 1

/-! ## Routing -/

/-- C1: for every oplog entry, whatever its `Op`, the event-routing task makes exactly
one handler call: `OnInsert` for "i", `OnUpdate` for "u", `OnDelete` for "d", `OnCmd`
for "c", `OnNoop` for "n" and `OnUnknown` for every other code. The event of that call
has the entry's `Op` and `Ns`. In a run of `Start` the task adds that one call to the
calls made so far, and its remaining action, giving back its token, adds none. -/
theorem routeTask_exactly_one_call (fm : Fmt) (e : opLogEntry) :
    ∃ c : HandlerCall,
      routeTask fm e = [c] ∧ c.event = mkEvent fm e ∧ c.event.Op = e.Op ∧
      c.event.Ns = e.Ns ∧
      (e.Op = "i" → c = HandlerCall.OnInsert (mkEvent fm e)) ∧
      (e.Op = "u" → c = HandlerCall.OnUpdate (mkEvent fm e)) ∧
      (e.Op = "d" → c = HandlerCall.OnDelete (mkEvent fm e)) ∧
      (e.Op = "c" → c = HandlerCall.OnCmd (mkEvent fm e)) ∧
      (e.Op = "n" → c = HandlerCall.OnNoop (mkEvent fm e)) ∧
      (e.Op ≠ "i" → e.Op ≠ "u" → e.Op ≠ "d" → e.Op ≠ "c" → e.Op ≠ "n" →
        c = HandlerCall.OnUnknown (mkEvent fm e)) ∧
      (∀ (s : State) (i : Nat), s.tasks.get? i = some (Task.route e false) →
        ∃ s1, stepTask fm s i = some s1 ∧ s1.calls = s.calls ++ [c] ∧
          s1.tasks.get? i = some (Task.route e true)) ∧
      (∀ (s s1 : State) (i : Nat), s.tasks.get? i = some (Task.route e true) →
        stepTask fm s i = some s1 → s1.calls = s.calls) := by
  have hstep : ∀ (s : State) (i : Nat), s.tasks.get? i = some (Task.route e false) →
      ∃ s1, stepTask fm s i = some s1 ∧ s1.calls = s.calls ++ routeTask fm e ∧
        s1.tasks.get? i = some (Task.route e true) := by
    intro s i h
    have hi : i < s.tasks.length := by
      rcases Nat.lt_or_ge i s.tasks.length with h1 | h1
      · exact h1
      · rw [List.get?_eq_none.mpr h1] at h
        cases h
    refine ⟨{ s with
      calls := s.calls ++ routeTask fm e
      tasks := s.tasks.set i (Task.route e true) }, by simp only [stepTask, h], rfl, ?_⟩
    simp [List.getElem?_set, hi]
  have hrel : ∀ (s s1 : State) (i : Nat), s.tasks.get? i = some (Task.route e true) →
      stepTask fm s i = some s1 → s1.calls = s.calls := by
    intro s s1 i h h1
    simp only [stepTask, h] at h1
    split at h1
    · cases h1
      rfl
    · cases h1
  by_cases hu : e.Op = "u"
  · exact ⟨HandlerCall.OnUpdate (mkEvent fm e), by simp [routeTask, hu], rfl, rfl, rfl,
      by simp [hu], by simp, by simp [hu], by simp [hu], by simp [hu],
      by simp [hu], by simpa [routeTask, hu] using hstep, hrel⟩
  by_cases hi : e.Op = "i"
  · exact ⟨HandlerCall.OnInsert (mkEvent fm e), by simp [routeTask, hi], rfl, rfl, rfl,
      by simp, by simp [hi], by simp [hi], by simp [hi], by simp [hi],
      by simp [hi], by simpa [routeTask, hi] using hstep, hrel⟩
  by_cases hd : e.Op = "d"
  · exact ⟨HandlerCall.OnDelete (mkEvent fm e), by simp [routeTask, hd], rfl, rfl, rfl,
      by simp [hd], by simp [hd], by simp, by simp [hd], by simp [hd],
      by simp [hd], by simpa [routeTask, hd] using hstep, hrel⟩
  by_cases hc : e.Op = "c"
  · exact ⟨HandlerCall.OnCmd (mkEvent fm e), by simp [routeTask, hc], rfl, rfl, rfl,
      by simp [hc], by simp [hc], by simp [hc], by simp, by simp [hc],
      by simp [hc], by simpa [routeTask, hc] using hstep, hrel⟩
  by_cases hn : e.Op = "n"
  · exact ⟨HandlerCall.OnNoop (mkEvent fm e), by simp [routeTask, hn], rfl, rfl, rfl,
      by simp [hn], by simp [hn], by simp [hn], by simp [hn], by simp,
      by simp [hn], by simpa [routeTask, hn] using hstep, hrel⟩
  · exact ⟨HandlerCall.OnUnknown (mkEvent fm e),
      by simp [routeTask, hu, hi, hd, hc, hn], rfl, rfl, rfl,
      fun h => absurd h hi, fun h => absurd h hu, fun h => absurd h hd,
      fun h => absurd h hc, fun h => absurd h hn, fun _ _ _ _ _ => rfl,
      by simpa [routeTask, hu, hi, hd, hc, hn] using hstep, hrel⟩

/-! ## Timestamps -/

/-- The arithmetic shift by 32 of a non-negative int64 drops its low 32 bits. -/
theorem shr64_split (s o : Nat) (ho : o < 2 ^ 32) :
    shr64 ((s : Int) * 2 ^ 32 + o) 32 = s := by
  unfold shr64
  rw [Int.shiftRight_eq_div_pow]
  norm_num at ho ⊢
  omega

/-- Below `2 ^ 31` the shift `<< 32` does not wrap. -/
theorem shl64_small (t : Nat) (ht : t < 2 ^ 31) : shl64 t 32 = (t : Int) * 2 ^ 32 := by
  unfold shl64 wrapInt64
  norm_num at ht ⊢
  omega

/-- C9: the event timestamp is the entry's timestamp with the ordinal stripped. For an
entry whose timestamp is `s * 2^32 + o` with `s < 2^31` and `o < 2^32`, the event's `Ts`
is the decimal rendering of `s`, so every entry with the same `s` gets the same `Ts`,
whatever its ordinal. Stripping `s << 32` gives back `s`, and so does stripping the
`startReadingFromTime` of the document `NewOpLogTailer` creates at Unix time `s`,
whether or not its insertion into the collection succeeds. -/
theorem event_Ts_strips_ordinal (fm : Fmt) (e : opLogEntry) (s o : Nat)
    (hs : s < 2 ^ 31) (ho : o < 2 ^ 32) (hts : e.Ts = (s : Int) * 2 ^ 32 + o) :
    (mkEvent fm e).Ts = Nat.repr s ∧
    (∀ (e2 : opLogEntry) (o2 : Nat), o2 < 2 ^ 32 → e2.Ts = (s : Int) * 2 ^ 32 + o2 →
      (mkEvent fm e2).Ts = (mkEvent fm e).Ts) ∧
    shr64 (shl64 s 32) 32 = s ∧
    (∀ (d : Driver) (coll : Collection) (filterRegex label : String),
      d.parseURL = true → d.dialErr = none → d.countErr = none → d.nowUnix = s →
      queryCount coll { filterRegex := filterRegex, label := label } = 0 →
      ∃ doc, NewOpLogTailer d coll filterRegex label =
          Outcome.returned (if d.insertErr.isSome then coll else coll ++ [doc]) doc ∧
        shr64 doc.StartReadingFromTime 32 = s) := by
  have key : ∀ (e2 : opLogEntry) (o2 : Nat), o2 < 2 ^ 32 → e2.Ts = (s : Int) * 2 ^ 32 + o2 →
      (mkEvent fm e2).Ts = Nat.repr s := by
    intro e2 o2 h2 ht2
    simp only [mkEvent, ht2, shr64_split s o2 h2]
    rfl
  have hback : shr64 (shl64 s 32) 32 = s := by
    rw [shl64_small s hs]
    simpa using shr64_split s 0 (by norm_num)
  refine ⟨key e o ho hts, ?_, hback, ?_⟩
  · intro e2 o2 h2 ht2
    rw [key e2 o2 h2 ht2, key e o ho hts]
  · intro d coll filterRegex label hp hd hc hnow h0
    refine ⟨{ FilterRegex := filterRegex, StartReadingFromTime := shl64 d.nowUnix 32,
              Label := label }, ?_, ?_⟩
    · cases hi : d.insertErr <;>
        simp [NewOpLogTailer, hp, hd, hc, buildOpLogTailerInfoSelector, h0, collInsert, hi]
    · simp only [hnow]
      exact hback

/-- At the entry with seconds 5 and ordinal 7 the event's `Ts` is "5". -/
theorem event_Ts_strips_ordinal_witness :
    (mkEvent { sM := fun _ => "", plusvM := fun _ => "" }
      { Ts := 5 * 2 ^ 32 + 7, H := 0, V := 2, Op := "i", Ns := "db.c", O := [], O2 := [] }).Ts
      = "5" :=
  (event_Ts_strips_ordinal { sM := fun _ => "", plusvM := fun _ => "" }
    { Ts := 5 * 2 ^ 32 + 7, H := 0, V := 2, Op := "i", Ns := "db.c", O := [], O2 := [] }
    5 7 (by norm_num) (by norm_num) (by norm_num)).1

/-! ## The checkpoint collection: lemmas -/

/-- An update finds a document exactly when the count is positive. -/
theorem collUpdate_found (coll : Collection) (sel : InfoSelector) (doc : opLogTailerInfo)
    (h : 0 < queryCount coll sel) : (collUpdate coll sel doc).2 = true := by
  induction coll with
  | nil => simp [queryCount] at h
  | cons d ds ih =>
    by_cases hd : sel.selects d = true
    · simp [collUpdate, hd]
    · have h1 : 0 < queryCount ds sel := by
        simpa [queryCount, List.filter_cons, hd] using h
      simpa [collUpdate, hd] using ih h1

/-- An update by a document that a predicate cannot tell from the selected ones keeps
the documents satisfying the predicate in number. -/
theorem collUpdate_count (coll : Collection) (sel : InfoSelector) (doc : opLogTailerInfo)
    (p : opLogTailerInfo → Bool) (hp : ∀ d, sel.selects d = true → p d = p doc) :
    ((collUpdate coll sel doc).1.filter p).length = (coll.filter p).length := by
  induction coll with
  | nil => simp [collUpdate]
  | cons d ds ih =>
    by_cases hd : sel.selects d = true
    · have := hp d hd
      by_cases hpd : p doc = true <;> simp [collUpdate, hd, List.filter_cons, this, hpd]
    · simp only [collUpdate, hd, Bool.false_eq_true, if_false, List.filter_cons]
      by_cases hpd : p d = true
      · simpa [hpd] using ih
      · simpa [hpd] using ih

/-- After a successful update by a selected document, that document is the first one
the selector selects. -/
theorem collUpdate_one (coll : Collection) (sel : InfoSelector) (doc : opLogTailerInfo)
    (hdoc : sel.selects doc = true) (h : (collUpdate coll sel doc).2 = true) :
    queryOne none (collUpdate coll sel doc).1 sel = some doc := by
  induction coll with
  | nil => simp [collUpdate] at h
  | cons d ds ih =>
    by_cases hd : sel.selects d = true
    · simp [collUpdate, hd, queryOne, List.find?_cons, hdoc]
    · have h1 : (collUpdate ds sel doc).2 = true := by simpa [collUpdate, hd] using h
      have := ih h1
      simpa [collUpdate, hd, queryOne, List.find?_cons] using this

/-- A selector that selects a document has that document's filter and label. -/
theorem selects_iff (sel : InfoSelector) (doc : opLogTailerInfo) :
    sel.selects doc = true ↔ doc.FilterRegex = sel.filterRegex ∧ doc.Label = sel.label := by
  simp [InfoSelector.selects]

/-- An update under the key of the replacement keeps every count. -/
theorem advanceUpdate_count (tailerInfo : opLogTailerInfo) (coll : Collection)
    (sel : InfoSelector) :
    queryCount (advanceUpdate tailerInfo coll).1 sel = queryCount coll sel := by
  unfold advanceUpdate queryCount
  apply collUpdate_count
  intro d hd
  rw [selects_iff] at hd
  simp [InfoSelector.selects, hd.1, hd.2]

/-- The first element satisfying a predicate is the head of the filtered list. -/
theorem find?_eq_head?_filter (p : opLogTailerInfo → Bool) (coll : Collection) :
    coll.find? p = (coll.filter p).head? := by
  induction coll with
  | nil => rfl
  | cons d ds ih =>
    by_cases hd : p d = true
    · simp [List.find?_cons, List.filter_cons, hd]
    · simp [List.find?_cons, List.filter_cons, hd]

/-- When the count is one, `Query.One` gives the only selected document. -/
theorem queryOne_of_count_one (coll : Collection) (sel : InfoSelector)
    (h : queryCount coll sel = 1) :
    ∃ doc, coll.filter sel.selects = [doc] ∧ queryOne none coll sel = some doc := by
  unfold queryCount at h
  obtain ⟨doc, hdoc⟩ := List.length_eq_one.mp h
  refine ⟨doc, hdoc, ?_⟩
  unfold queryOne
  rw [find?_eq_head?_filter, hdoc]
  rfl

/-! ## `NewOpLogTailer` -/

/-- C2 (as amended): with the connection made and the count read, `NewOpLogTailer` ends
in the fatal log and an unchanged collection when more than one stored document has the
given filter and label; when none has and the `Insert` succeeds, it inserts one document
with that key and `startReadingFromTime` the Unix time shifted left by 32, and takes it
as the checkpoint; when exactly one has and the `One` succeeds, it leaves the collection
unchanged and takes the stored document as the checkpoint. -/
theorem NewOpLogTailer_load_or_create (d : Driver) (coll : Collection)
    (filterRegex label : String)
    (hp : d.parseURL = true) (hd : d.dialErr = none) (hc : d.countErr = none) :
    (1 < queryCount coll { filterRegex := filterRegex, label := label } →
      NewOpLogTailer d coll filterRegex label =
        Outcome.fatal FatalMsg.moreThanOneDocument coll) ∧
    (queryCount coll { filterRegex := filterRegex, label := label } = 0 →
      d.insertErr = none →
      NewOpLogTailer d coll filterRegex label =
        Outcome.returned
          (coll ++ [{ FilterRegex := filterRegex, StartReadingFromTime := shl64 d.nowUnix 32,
                      Label := label }])
          { FilterRegex := filterRegex, StartReadingFromTime := shl64 d.nowUnix 32,
            Label := label } ∧
      queryCount
          (coll ++ [{ FilterRegex := filterRegex, StartReadingFromTime := shl64 d.nowUnix 32,
                      Label := label }])
          { filterRegex := filterRegex, label := label } = 1) ∧
    (queryCount coll { filterRegex := filterRegex, label := label } = 1 →
      d.oneErr = none →
      ∃ doc, coll.filter (InfoSelector.selects { filterRegex := filterRegex, label := label })
          = [doc] ∧
        doc.FilterRegex = filterRegex ∧ doc.Label = label ∧
        NewOpLogTailer d coll filterRegex label = Outcome.returned coll doc) := by
  refine ⟨?_, ?_, ?_⟩
  · intro h
    simp [NewOpLogTailer, hp, hd, hc, buildOpLogTailerInfoSelector, h]
  · intro h hi
    refine ⟨by simp [NewOpLogTailer, hp, hd, hc, buildOpLogTailerInfoSelector, h, collInsert,
      hi], ?_⟩
    unfold queryCount at h ⊢
    simp [List.filter_append, h, InfoSelector.selects]
  · intro h ho
    obtain ⟨doc, hf, hone⟩ := queryOne_of_count_one coll _ h
    have hmem : doc ∈ coll.filter
        (InfoSelector.selects { filterRegex := filterRegex, label := label }) := by
      rw [hf]
      exact List.mem_singleton.mpr rfl
    have hsel := (selects_iff _ doc).mp (List.mem_filter.mp hmem).2
    refine ⟨doc, hf, hsel.1, hsel.2, ?_⟩
    simp [NewOpLogTailer, hp, hd, hc, buildOpLogTailerInfoSelector, h, ho, hone]

/-- On the collection holding one document for the key and one for another label,
`NewOpLogTailer` reads the first one back. -/
theorem NewOpLogTailer_load_or_create_witness :
    NewOpLogTailer
      { parseURL := true, dialErr := none, countErr := none, insertErr := none
        oneErr := none, nowUnix := 7 }
      [{ FilterRegex := "f", StartReadingFromTime := 3, Label := "a" },
       { FilterRegex := "f", StartReadingFromTime := 4, Label := "b" }] "f" "a" =
      Outcome.returned
        [{ FilterRegex := "f", StartReadingFromTime := 3, Label := "a" },
         { FilterRegex := "f", StartReadingFromTime := 4, Label := "b" }]
        { FilterRegex := "f", StartReadingFromTime := 3, Label := "a" } := by
  obtain ⟨doc, hf, -, -, h⟩ :=
    (NewOpLogTailer_load_or_create
      { parseURL := true, dialErr := none, countErr := none, insertErr := none
        oneErr := none, nowUnix := 7 }
      [{ FilterRegex := "f", StartReadingFromTime := 3, Label := "a" },
       { FilterRegex := "f", StartReadingFromTime := 4, Label := "b" }] "f" "a"
      rfl rfl rfl).2.2 (by simp [queryCount, InfoSelector.selects, List.filter_cons]) rfl
  have : doc = { FilterRegex := "f", StartReadingFromTime := 3, Label := "a" } := by
    simpa [InfoSelector.selects, List.filter_cons, eq_comm] using hf
  rw [h, this]

/-- C2 as stated fails: with the connection made and the count read, a failing `Insert`
leaves the empty collection empty although no document has the key, and a failing `One`
leaves the fresh value as the in-memory checkpoint, not the stored document. Both times
a tailer is returned, since lines 139 and 145 discard the error. -/
theorem NewOpLogTailer_store_error_discarded :
    (queryCount [] { filterRegex := "f", label := "a" } = 0 ∧
      NewOpLogTailer
        { parseURL := true, dialErr := none, countErr := none
          insertErr := some "not authorized", oneErr := none, nowUnix := 7 }
        [] "f" "a" =
      Outcome.returned []
        { FilterRegex := "f", StartReadingFromTime := shl64 7 32, Label := "a" }) ∧
    (queryCount [{ FilterRegex := "f", StartReadingFromTime := 3, Label := "a" }]
        { filterRegex := "f", label := "a" } = 1 ∧
      NewOpLogTailer
        { parseURL := true, dialErr := none, countErr := none
          insertErr := none, oneErr := some "EOF", nowUnix := 7 }
        [{ FilterRegex := "f", StartReadingFromTime := 3, Label := "a" }] "f" "a" =
      Outcome.returned [{ FilterRegex := "f", StartReadingFromTime := 3, Label := "a" }]
        { FilterRegex := "f", StartReadingFromTime := shl64 7 32, Label := "a" } ∧
      shl64 7 32 ≠ 3) := by
  refine ⟨⟨rfl, ?_⟩, by simp [queryCount, InfoSelector.selects, List.filter_cons], ?_, ?_⟩
  · simp [NewOpLogTailer, buildOpLogTailerInfoSelector, queryCount, collInsert]
  · simp [NewOpLogTailer, buildOpLogTailerInfoSelector, queryCount, queryOne,
      InfoSelector.selects, List.filter_cons]
  · unfold shl64 wrapInt64
    norm_num

/-- C10: when dialing fails, `mgo.DialWithInfo` gives a nil session and an error, and
`NewOpLogTailer` calls `SetMode` on that session before it looks at the error: it ends
in a nil pointer dereference at `session.SetMode`, not in the fatal log of "Can't open
session", which no input reaches. -/
theorem NewOpLogTailer_dial_failure (coll : Collection) (filterRegex label e : String)
    (countErr insertErr oneErr : Option String) (nowUnix : Int) :
    NewOpLogTailer
        { parseURL := true, dialErr := some e, countErr := countErr, insertErr := insertErr
          oneErr := oneErr, nowUnix := nowUnix }
        coll filterRegex label = Outcome.panicked "session.SetMode" coll ∧
    ∀ (d : Driver) (c1 c2 : Collection) (f l : String),
      NewOpLogTailer d c1 f l ≠ Outcome.fatal FatalMsg.cantOpenSession c2 := by
  refine ⟨by simp [NewOpLogTailer], ?_⟩
  intro d c1 c2 f l h
  unfold NewOpLogTailer at h
  cases hd : d.dialErr <;> simp only [hd] at h <;> repeat (split at h <;> try cases h)

/-! ## The admission pool -/

/-- The fill loop leaves `n` tokens after what the channel held. -/
theorem fill_loop (n : Nat) (acc : List Int) :
    (List.range n).foldl (fun ch _ => ch ++ [(1 : Int)]) acc = acc ++ List.replicate n 1 := by
  induction n with
  | zero => simp
  | succ k ih =>
    rw [List.range_succ, List.foldl_append, ih]
    simp [List.replicate_succ']

/-- The channel is full when the reading loop starts. -/
theorem fillControlCh_eq : fillControlCh = List.replicate 100 1 := by
  unfold fillControlCh
  simpa using fill_loop 100 []

/-- A position holding a task lies within the task list. -/
theorem lt_of_get?_eq_some {ts : List Task} {i : Nat} {t : Task}
    (h : ts.get? i = some t) : i < ts.length := by
  rcases Nat.lt_or_ge i ts.length with h1 | h1
  · exact h1
  · rw [List.get?_eq_none.mpr h1] at h
    cases h

/-- What an action does to the pool: it takes a token and launches a task, or ends a
task and returns a token, or leaves both alone. -/
theorem step_pool (fm : Fmt) (s s1 : State) (l : Label) (h : step fm s l = some s1) :
    (s1.tasks.length = s.tasks.length + 1 ∧ s1.controlCh.length + 1 = s.controlCh.length) ∨
    (s1.tasks.length + 1 = s.tasks.length ∧ s1.controlCh.length = s.controlCh.length + 1) ∨
    (s1.tasks.length = s.tasks.length ∧ s1.controlCh.length = s.controlCh.length) := by
  cases l with
  | nextEntry e =>
    simp only [step] at h
    split at h
    · cases h
      simp
    · cases h
  | nextFalse err timeout decoded =>
    simp only [step] at h
    split at h
    · split at h
      · cases h
        simp
      · split at h <;> cases h <;> simp
    · cases h
  | updateFails i =>
    simp only [step] at h
    split at h
    · cases h
      simp
    · cases h
  | launch =>
    simp only [step] at h
    split at h
    · rename_i hc
      cases h
      simp [hc]
    · rename_i hc
      cases h
      simp [hc]
    · cases h
  | task i =>
    simp only [step, stepTask] at h
    split at h
    · cases h
    · cases h
      simp
    · cases h
      simp
    · cases h
      simp
    · rename_i hget
      split at h
      · cases h
        have hi := lt_of_get?_eq_some hget
        right
        left
        simp [List.length_eraseIdx, hi]
        omega
      · cases h
    · rename_i hget
      split at h
      · cases h
        have hi := lt_of_get?_eq_some hget
        right
        left
        simp [List.length_eraseIdx, hi]
        omega
      · cases h

/-- A property that holds at the start of a run and that every action keeps holds at
its end. -/
theorem run_invariant (fm : Fmt) (P : State → Prop)
    (hstep : ∀ s l s1, P s → step fm s l = some s1 → P s1) :
    ∀ (ls : List Label) (s s2 : State), P s → run fm s ls = some s2 → P s2 := by
  intro ls
  induction ls with
  | nil =>
    intro s s2 hP h
    simp only [run] at h
    cases h
    exact hP
  | cons l ls ih =>
    intro s s2 hP h
    simp only [run] at h
    split at h
    · rename_i s1 hs1
      exact ih s1 s2 (hstep s l s1 hP hs1) h
    · cases h

/-- C5: in every state a run of `Start` reaches, the tokens in `controlCh` and the
launched tasks that have not returned their token add up to 100, so at most 100 tasks
are running; and every further action either takes one token and launches one task,
or ends one task and returns one token, or touches neither. -/
theorem admission_pool_bounded (fm : Fmt) (tailerInfo : opLogTailerInfo) (coll : Collection)
    (ls : List Label) (s : State)
    (h : run fm (startInit tailerInfo coll) ls = some s) :
    s.tasks.length ≤ 100 ∧ s.controlCh.length + s.tasks.length = 100 ∧
    ∀ (l : Label) (s1 : State), step fm s l = some s1 →
      (s1.tasks.length = s.tasks.length + 1 ∧
        s1.controlCh.length + 1 = s.controlCh.length) ∨
      (s1.tasks.length + 1 = s.tasks.length ∧
        s1.controlCh.length = s.controlCh.length + 1) ∨
      (s1.tasks.length = s.tasks.length ∧ s1.controlCh.length = s.controlCh.length) := by
  have hsum : s.controlCh.length + s.tasks.length = 100 := by
    refine run_invariant fm (fun s => s.controlCh.length + s.tasks.length = 100) ?_ ls
      (startInit tailerInfo coll) s ?_ h
    · intro s l s1 hP hs
      have := step_pool fm s s1 l hs
      omega
    · simp [startInit, fillControlCh_eq]
  exact ⟨by omega, hsum, fun l s1 hs => step_pool fm s s1 l hs⟩

/-- After one entry is read and its two tasks launched, 98 tokens and 2 tasks. -/
theorem admission_pool_bounded_witness :
    ∃ s : State,
      run { sM := fun _ => "", plusvM := fun _ => "" }
        (startInit { FilterRegex := "f", StartReadingFromTime := 3, Label := "a" } [])
        [Label.nextEntry zeroEntry, Label.launch, Label.launch] = some s ∧
      s.tasks.length = 2 ∧ s.controlCh.length + s.tasks.length = 100 := by
  have hrun : run { sM := fun _ => "", plusvM := fun _ => "" }
      (startInit { FilterRegex := "f", StartReadingFromTime := 3, Label := "a" } [])
      [Label.nextEntry zeroEntry, Label.launch, Label.launch] =
      some { startInit { FilterRegex := "f", StartReadingFromTime := 3, Label := "a" } [] with
        result := zeroEntry
        yielded := [zeroEntry]
        controlCh := List.replicate 98 1
        tasks := [Task.advance AdvancePc.assign, Task.route zeroEntry false] } := by
    simp [run, step, startInit, fillControlCh_eq, List.replicate_succ]
  exact ⟨_, hrun, rfl, (admission_pool_bounded _ _ _ _ _ hrun).2.1⟩

/-! ## Leaving the reading loop -/

/-- C6: `Start` returns from inside the reading loop (line 243), so the receive loop of
lines 257-259 that would wait for the tasks is never run. After one entry is read and
its two tasks are launched, a cursor error makes `Start` return while both tasks have
yet to run: 98 tokens are in the pool, no handler has been called and the checkpoint
has not been written. -/
theorem Start_returns_with_tasks_running (fm : Fmt) (tailerInfo : opLogTailerInfo)
    (coll : Collection) (e : opLogEntry) (msg : String) (timeout : Bool)
    (decoded : Option opLogEntry) :
    ∃ s : State,
      run fm (startInit tailerInfo coll)
        [Label.nextEntry e, Label.launch, Label.launch,
         Label.nextFalse (some msg) timeout decoded] = some s ∧
      s.pc = ReaderPc.returned (some msg) ∧
      s.tasks = [Task.advance AdvancePc.assign, Task.route e false] ∧
      s.controlCh.length = 98 ∧ s.calls = [] ∧ s.coll = coll ∧
      s.tailerInfo = tailerInfo := by
  refine ⟨{ startInit tailerInfo coll with
      result := decoded.getD e
      yielded := [e]
      controlCh := List.replicate 98 1
      tasks := [Task.advance AdvancePc.assign, Task.route e false]
      iter := { (startInit tailerInfo coll).iter with
        err := some msg, timedOut := timeout, closed := true }
      pc := ReaderPc.returned (some msg) }, ?_, rfl, rfl, by simp, rfl, rfl, rfl⟩
  simp [run, step, startInit, fillControlCh_eq, List.replicate_succ, Iter.Err, Iter.Close]

/-- Once `Start` has returned, no action changes the reading loop, the cursor or the
entries read. -/
theorem step_after_return (fm : Fmt) (s s1 : State) (l : Label) (r : Option String)
    (hpc : s.pc = ReaderPc.returned r) (h : step fm s l = some s1) :
    s1.pc = ReaderPc.returned r ∧ s1.yielded = s.yielded ∧ s1.iter = s.iter := by
  cases l with
  | nextEntry e => simp [step, hpc] at h
  | nextFalse err timeout decoded => simp [step, hpc] at h
  | launch => simp [step, hpc] at h
  | updateFails i =>
    simp only [step] at h
    split at h
    · cases h
      exact ⟨hpc, rfl, rfl⟩
    · cases h
  | task i =>
    simp only [step, stepTask] at h
    split at h
    · cases h
    · cases h
      exact ⟨hpc, rfl, rfl⟩
    · cases h
      exact ⟨hpc, rfl, rfl⟩
    · cases h
      exact ⟨hpc, rfl, rfl⟩
    · split at h
      · cases h
        exact ⟨hpc, rfl, rfl⟩
      · cases h
    · split at h
      · cases h
        exact ⟨hpc, rfl, rfl⟩
      · cases h

/-- The only action that makes `Start` return is a `Next` that is false on a cursor
reporting an error, and the error returned is that one. -/
theorem step_returns (fm : Fmt) (s s1 : State) (l : Label) (r : Option String)
    (h : step fm s l = some s1) (h1 : s1.pc = ReaderPc.returned r) :
    s.pc = ReaderPc.returned r ∨
    (s.pc = ReaderPc.next ∧ ∃ (e : String) (timeout : Bool) (decoded : Option opLogEntry),
      l = Label.nextFalse (some e) timeout decoded ∧ r = some e) := by
  cases l with
  | updateFails i =>
    simp only [step] at h
    split at h
    · cases h
      exact Or.inl h1
    · cases h
  | nextEntry e =>
    simp only [step] at h
    split at h
    · cases h
      cases h1
    · cases h
  | nextFalse err timeout decoded =>
    simp only [step] at h
    split at h
    · rename_i hpc
      cases err with
      | none =>
        simp only [Iter.Err, Option.isSome_none, Bool.false_eq_true, if_false] at h
        split at h <;> cases h <;> simp [hpc] at h1
      | some e =>
        simp only [Iter.Err, Option.isSome_some, if_true, Iter.Close] at h
        cases h
        simp only [ReaderPc.returned.injEq] at h1
        exact Or.inr ⟨hpc, e, timeout, decoded, rfl, h1.symm⟩
    · cases h
  | launch =>
    simp only [step] at h
    split at h
    · cases h
      cases h1
    · cases h
      cases h1
    · cases h
  | task i =>
    simp only [step, stepTask] at h
    split at h
    · cases h
    · cases h
      exact Or.inl h1
    · cases h
      exact Or.inl h1
    · cases h
      exact Or.inl h1
    · split at h
      · cases h
        exact Or.inl h1
      · cases h
    · split at h
      · cases h
        exact Or.inl h1
      · cases h

/-- C7: when `Next` is false and the cursor reports an error `e`, `Start` closes the
cursor and returns `e`, and from then on reads no entry, whatever the tasks still do.
`Start` returns in no other way: every action that takes it to a returned state is such
a `Next`. On an idle timeout without error it goes on with the same cursor; with
neither error nor timeout it opens a new cursor from the in-memory checkpoint and goes
on. -/
theorem Start_returns_on_cursor_error_only (fm : Fmt) (s : State) :
    (s.pc = ReaderPc.next → ∀ (e : String) (timeout : Bool) (decoded : Option opLogEntry),
      ∃ s1, step fm s (Label.nextFalse (some e) timeout decoded) = some s1 ∧
        s1.pc = ReaderPc.returned (some e) ∧ s1.iter.closed = true ∧
        s1.iter.serial = s.iter.serial ∧ s1.yielded = s.yielded ∧
        ∀ (ls : List Label) (s2 : State), run fm s1 ls = some s2 →
          s2.pc = ReaderPc.returned (some e) ∧ s2.yielded = s.yielded ∧
          s2.iter = s1.iter) ∧
    (∀ (l : Label) (s1 : State) (r : Option String),
      step fm s l = some s1 → s1.pc = ReaderPc.returned r →
        s.pc = ReaderPc.returned r ∨
        (s.pc = ReaderPc.next ∧ ∃ (e : String) (timeout : Bool) (decoded : Option opLogEntry),
          l = Label.nextFalse (some e) timeout decoded ∧ r = some e)) ∧
    (s.pc = ReaderPc.next → ∀ decoded : Option opLogEntry,
      ∃ s1, step fm s (Label.nextFalse none true decoded) = some s1 ∧
        s1.pc = ReaderPc.next ∧
        s1.iter.serial = s.iter.serial ∧ s1.iter.sel = s.iter.sel ∧
        s1.iter.closed = s.iter.closed ∧ s1.yielded = s.yielded) ∧
    (s.pc = ReaderPc.next → ∀ decoded : Option opLogEntry,
      ∃ s1, step fm s (Label.nextFalse none false decoded) = some s1 ∧
        s1.pc = ReaderPc.next ∧
        s1.iter.serial = s.iter.serial + 1 ∧
        s1.iter.sel = buildOpLogSelector s.tailerInfo ∧
        s1.iter.closed = false ∧ s1.yielded = s.yielded) := by
  refine ⟨?_, ?_, ?_, ?_⟩
  · intro hpc e timeout decoded
    refine ⟨{ s with
      iter := { s.iter with err := some e, timedOut := timeout, closed := true }
      pc := ReaderPc.returned (some e)
      result := decoded.getD s.result }, ?_, rfl, rfl, rfl, rfl, ?_⟩
    · simp [step, hpc, Iter.Err, Iter.Close]
    · intro ls s2 h2
      exact run_invariant fm
        (fun t => t.pc = ReaderPc.returned (some e) ∧ t.yielded = s.yielded ∧
          t.iter = { s.iter with err := some e, timedOut := timeout, closed := true })
        (fun t l t1 hP ht => by
          obtain ⟨h1, h2, h3⟩ := step_after_return fm t t1 l (some e) hP.1 ht
          exact ⟨h1, h2.trans hP.2.1, h3.trans hP.2.2⟩)
        ls { s with
          iter := { s.iter with err := some e, timedOut := timeout, closed := true }
          pc := ReaderPc.returned (some e)
          result := decoded.getD s.result } s2 ⟨rfl, rfl, rfl⟩ h2
  · intro l s1 r h h1
    exact step_returns fm s s1 l r h h1
  · intro hpc decoded
    exact ⟨{ s with iter := { s.iter with err := none, timedOut := true } },
      by simp [step, hpc, Iter.Err, Iter.Timeout], hpc, rfl, rfl, rfl, rfl⟩
  · intro hpc decoded
    exact ⟨{ s with
      iter :=
        { serial := s.iter.serial + 1, sel := buildOpLogSelector s.tailerInfo
          tailSeconds := 5, err := none, timedOut := false, closed := false } },
      by simp [step, hpc, Iter.Err, Iter.Timeout], hpc, rfl, rfl, rfl, rfl⟩

/-! ## Advancing the checkpoint -/

/-- C3 (as amended): in a state of a run where the collection holds exactly one document
for the key of the in-memory checkpoint and a checkpoint-advance task is about to call
`Update`, the `Update` finds its document and persists the in-memory
`startReadingFromTime` of that moment; a later `NewOpLogTailer` with the same filter and
label whose connection, count and `One` succeed returns a checkpoint with that
`startReadingFromTime`, and the selector `Start` then builds has it as strict lower
bound. That value is the timestamp the task assigned itself when its `Update` comes
right after its assignment. -/
theorem checkpoint_round_trip (fm : Fmt) (s : State) (i : Nat) (d : Driver)
    (hp : d.parseURL = true) (hd : d.dialErr = none) (hc : d.countErr = none)
    (ho : d.oneErr = none)
    (hi : s.tasks.get? i = some (Task.advance AdvancePc.update))
    (h1 : queryCount s.coll (buildOpLogTailerInfoSelector s.tailerInfo) = 1) :
    ∃ s1 : State, step fm s (Label.task i) = some s1 ∧
      s1.persisted = s.persisted ++ [s.tailerInfo.StartReadingFromTime] ∧
      (∃ restarted : opLogTailerInfo,
        NewOpLogTailer d s1.coll s.tailerInfo.FilterRegex s.tailerInfo.Label =
          Outcome.returned s1.coll restarted ∧
        restarted.StartReadingFromTime = s.tailerInfo.StartReadingFromTime ∧
        (startInit restarted s1.coll).iter.sel.tsGt = s.tailerInfo.StartReadingFromTime ∧
        ∀ (rx : String → String → Bool) (e : opLogEntry),
          (buildOpLogSelector restarted).admits rx e = true →
            s.tailerInfo.StartReadingFromTime < e.Ts) ∧
      (∀ s0 : State, s0.tasks.get? i = some (Task.advance AdvancePc.assign) →
        step fm s0 (Label.task i) = some s →
          s.tailerInfo.StartReadingFromTime = s0.result.Ts) := by
  have hfound : (advanceUpdate s.tailerInfo s.coll).2 = true := by
    unfold advanceUpdate
    apply collUpdate_found
    show 0 < queryCount s.coll (buildOpLogTailerInfoSelector s.tailerInfo)
    omega
  have hcount : queryCount (advanceUpdate s.tailerInfo s.coll).1
      { filterRegex := s.tailerInfo.FilterRegex, label := s.tailerInfo.Label } = 1 := by
    rw [advanceUpdate_count]
    exact h1
  have hone : queryOne none (advanceUpdate s.tailerInfo s.coll).1
      { filterRegex := s.tailerInfo.FilterRegex, label := s.tailerInfo.Label } =
      some s.tailerInfo := by
    unfold advanceUpdate at hfound ⊢
    exact collUpdate_one s.coll _ _ (by simp [InfoSelector.selects]) hfound
  refine ⟨{ s with
      coll := (advanceUpdate s.tailerInfo s.coll).1
      tasks := s.tasks.set i (Task.advance AdvancePc.release)
      persisted := s.persisted ++ [s.tailerInfo.StartReadingFromTime] }, ?_, rfl,
    ⟨s.tailerInfo, ?_, rfl, rfl, ?_⟩, ?_⟩
  · simp only [step, stepTask, hi, hfound, if_true]
  · simp [NewOpLogTailer, hp, hd, hc, ho, buildOpLogTailerInfoSelector, hcount, hone]
  · intro rx e he
    simp only [OplogSelector.admits, buildOpLogSelector, Bool.and_eq_true,
      decide_eq_true_eq] at he
    exact he.1
  · intro s0 h0 hs
    simp only [step, stepTask, h0, Option.some.injEq] at hs
    rw [← hs]
    rfl

/-- With the task of the entry 9 about to call `Update` on the only checkpoint, the
`Update` and a restart give a checkpoint at 9. -/
theorem checkpoint_round_trip_witness :
    ∃ (s1 : State) (restarted : opLogTailerInfo),
      step { sM := fun _ => "", plusvM := fun _ => "" }
        { startInit { FilterRegex := "f", StartReadingFromTime := 3, Label := "a" }
            [{ FilterRegex := "f", StartReadingFromTime := 3, Label := "a" }] with
          tailerInfo := { FilterRegex := "f", StartReadingFromTime := 9, Label := "a" }
          result := { Ts := 9, H := 0, V := 2, Op := "i", Ns := "f.c", O := [], O2 := [] }
          yielded := [{ Ts := 9, H := 0, V := 2, Op := "i", Ns := "f.c", O := [], O2 := [] }]
          controlCh := List.replicate 98 1
          tasks := [Task.advance AdvancePc.update, Task.route { Ts := 9, H := 0, V := 2, Op := "i", Ns := "f.c", O := [], O2 := [] } false]
          assigned := [9] }
        (Label.task 0) = some s1 ∧
      NewOpLogTailer
        { parseURL := true, dialErr := none, countErr := none, insertErr := none
          oneErr := none, nowUnix := 7 }
        s1.coll "f" "a" = Outcome.returned s1.coll restarted ∧
      restarted.StartReadingFromTime = 9 := by
  obtain ⟨s1, hs, -, ⟨r, hr, ht, -⟩, -⟩ :=
    checkpoint_round_trip { sM := fun _ => "", plusvM := fun _ => "" }
      { startInit { FilterRegex := "f", StartReadingFromTime := 3, Label := "a" }
          [{ FilterRegex := "f", StartReadingFromTime := 3, Label := "a" }] with
        tailerInfo := { FilterRegex := "f", StartReadingFromTime := 9, Label := "a" }
        result := { Ts := 9, H := 0, V := 2, Op := "i", Ns := "f.c", O := [], O2 := [] }
        yielded := [{ Ts := 9, H := 0, V := 2, Op := "i", Ns := "f.c", O := [], O2 := [] }]
        controlCh := List.replicate 98 1
        tasks := [Task.advance AdvancePc.update, Task.route { Ts := 9, H := 0, V := 2, Op := "i", Ns := "f.c", O := [], O2 := [] } false]
        assigned := [9] }
      0
      { parseURL := true, dialErr := none, countErr := none, insertErr := none
        oneErr := none, nowUnix := 7 }
      rfl rfl rfl rfl rfl
      (by simp [queryCount, buildOpLogTailerInfoSelector, InfoSelector.selects,
        List.filter_cons, startInit])
  exact ⟨s1, r, hs, hr, ht⟩

/-- C3 as stated fails: the task of the entry 9 assigns 9; before its `Update` the task
of the entry 12 assigns 12; the `Update` of the first task then succeeds and writes the
in-memory checkpoint, which holds 12, and a restart resumes after 12, not after 9. -/
theorem checkpoint_round_trip_interleaved :
    ∃ s1 s2 : State,
      run { sM := fun _ => "", plusvM := fun _ => "" }
        (startInit { FilterRegex := "f", StartReadingFromTime := 3, Label := "a" }
          [{ FilterRegex := "f", StartReadingFromTime := 3, Label := "a" }])
        [Label.nextEntry { Ts := 9, H := 0, V := 2, Op := "i", Ns := "f.c", O := [], O2 := [] }, Label.launch, Label.launch, Label.task 0] = some s1 ∧
      s1.tasks.get? 0 = some (Task.advance AdvancePc.update) ∧
      s1.tailerInfo.StartReadingFromTime = 9 ∧
      run { sM := fun _ => "", plusvM := fun _ => "" } s1
        [Label.nextEntry { Ts := 12, H := 0, V := 2, Op := "i", Ns := "f.c", O := [], O2 := [] }, Label.launch, Label.launch, Label.task 2, Label.task 0]
        = some s2 ∧
      s2.tasks.get? 0 = some (Task.advance AdvancePc.release) ∧
      s2.persisted = [12] ∧
      s2.coll = [{ FilterRegex := "f", StartReadingFromTime := 12, Label := "a" }] ∧
      NewOpLogTailer
        { parseURL := true, dialErr := none, countErr := none, insertErr := none
          oneErr := none, nowUnix := 7 }
        s2.coll "f" "a" =
        Outcome.returned s2.coll
          { FilterRegex := "f", StartReadingFromTime := 12, Label := "a" } := by
  refine ⟨{ startInit { FilterRegex := "f", StartReadingFromTime := 3, Label := "a" }
        [{ FilterRegex := "f", StartReadingFromTime := 3, Label := "a" }] with
      tailerInfo := { FilterRegex := "f", StartReadingFromTime := 9, Label := "a" }
      result := { Ts := 9, H := 0, V := 2, Op := "i", Ns := "f.c", O := [], O2 := [] }
      yielded := [{ Ts := 9, H := 0, V := 2, Op := "i", Ns := "f.c", O := [], O2 := [] }]
      controlCh := List.replicate 98 1
      tasks := [Task.advance AdvancePc.update, Task.route { Ts := 9, H := 0, V := 2, Op := "i", Ns := "f.c", O := [], O2 := [] } false]
      assigned := [9] },
    { startInit { FilterRegex := "f", StartReadingFromTime := 3, Label := "a" }
        [{ FilterRegex := "f", StartReadingFromTime := 3, Label := "a" }] with
      tailerInfo := { FilterRegex := "f", StartReadingFromTime := 12, Label := "a" }
      coll := [{ FilterRegex := "f", StartReadingFromTime := 12, Label := "a" }]
      result := { Ts := 12, H := 0, V := 2, Op := "i", Ns := "f.c", O := [], O2 := [] }
      yielded := [{ Ts := 9, H := 0, V := 2, Op := "i", Ns := "f.c", O := [], O2 := [] }, { Ts := 12, H := 0, V := 2, Op := "i", Ns := "f.c", O := [], O2 := [] }]
      controlCh := List.replicate 96 1
      tasks := [Task.advance AdvancePc.release, Task.route { Ts := 9, H := 0, V := 2, Op := "i", Ns := "f.c", O := [], O2 := [] } false,
        Task.advance AdvancePc.update, Task.route { Ts := 12, H := 0, V := 2, Op := "i", Ns := "f.c", O := [], O2 := [] } false]
      assigned := [9, 12]
      persisted := [12] }, ?_, rfl, rfl, ?_, rfl, rfl, rfl, ?_⟩
  · simp [run, step, stepTask, startInit, fillControlCh_eq, List.replicate_succ,
      advanceAssign]
  · simp [run, step, stepTask, startInit, List.replicate_succ, advanceAssign,
      advanceUpdate, collUpdate, InfoSelector.selects]
  · simp [NewOpLogTailer, buildOpLogTailerInfoSelector, queryCount, queryOne,
      InfoSelector.selects, List.filter_cons]

/-- C8: the checkpoint-advance closure reads the variable `result` of `Start` when it
runs, and a `Next` that fails with a cursor error has by then put the failure document
into `result`. From the checkpoint 3, with the entry 9 read from an honest cursor and
its tasks launched, a cursor error makes `Start` return, and the pending
checkpoint-advance task then assigns and persists 0: a value below 3 that is the
timestamp of no entry a cursor has yielded. -/
theorem checkpoint_regresses_after_cursor_error :
    ∃ s : State,
      honestRun (fun _ _ => true) { sM := fun _ => "", plusvM := fun _ => "" }
        (startInit { FilterRegex := "f", StartReadingFromTime := 3, Label := "a" }
          [{ FilterRegex := "f", StartReadingFromTime := 3, Label := "a" }])
        [Label.nextEntry { Ts := 9, H := 0, V := 2, Op := "i", Ns := "f.c", O := [], O2 := [] }, Label.launch, Label.launch,
         Label.nextFalse (some "cursor failure") false (some zeroEntry),
         Label.task 0, Label.task 0] = true ∧
      run { sM := fun _ => "", plusvM := fun _ => "" }
        (startInit { FilterRegex := "f", StartReadingFromTime := 3, Label := "a" }
          [{ FilterRegex := "f", StartReadingFromTime := 3, Label := "a" }])
        [Label.nextEntry { Ts := 9, H := 0, V := 2, Op := "i", Ns := "f.c", O := [], O2 := [] }, Label.launch, Label.launch,
         Label.nextFalse (some "cursor failure") false (some zeroEntry),
         Label.task 0, Label.task 0] = some s ∧
      s.pc = ReaderPc.returned (some "cursor failure") ∧
      s.yielded = [{ Ts := 9, H := 0, V := 2, Op := "i", Ns := "f.c", O := [], O2 := [] }] ∧ s.assigned = [0] ∧ s.persisted = [0] ∧
      s.coll = [{ FilterRegex := "f", StartReadingFromTime := 0, Label := "a" }] ∧
      s.tailerInfo.StartReadingFromTime = 0 ∧
      s.tailerInfo.StartReadingFromTime <
        (startInit { FilterRegex := "f", StartReadingFromTime := 3, Label := "a" }
          [{ FilterRegex := "f", StartReadingFromTime := 3, Label := "a" }]).tailerInfo.StartReadingFromTime := by
  refine ⟨{ startInit { FilterRegex := "f", StartReadingFromTime := 3, Label := "a" }
        [{ FilterRegex := "f", StartReadingFromTime := 3, Label := "a" }] with
      tailerInfo := { FilterRegex := "f", StartReadingFromTime := 0, Label := "a" }
      coll := [{ FilterRegex := "f", StartReadingFromTime := 0, Label := "a" }]
      iter := { (startInit { FilterRegex := "f", StartReadingFromTime := 3, Label := "a" }
          [{ FilterRegex := "f", StartReadingFromTime := 3, Label := "a" }]).iter with
        err := some "cursor failure", timedOut := false, closed := true }
      result := zeroEntry
      pc := ReaderPc.returned (some "cursor failure")
      yielded := [{ Ts := 9, H := 0, V := 2, Op := "i", Ns := "f.c", O := [], O2 := [] }]
      controlCh := List.replicate 98 1
      tasks := [Task.advance AdvancePc.release, Task.route { Ts := 9, H := 0, V := 2, Op := "i", Ns := "f.c", O := [], O2 := [] } false]
      assigned := [0]
      persisted := [0] }, ?_, ?_, rfl, rfl, rfl, rfl, rfl, rfl, by decide⟩
  · simp [honestRun, honest, step, stepTask, startInit, fillControlCh_eq,
      List.replicate_succ, advanceAssign, advanceUpdate, collUpdate, InfoSelector.selects,
      OplogSelector.admits, buildOpLogSelector, Iter.Err, Iter.Close, zeroEntry]
  · simp [run, step, stepTask, startInit, fillControlCh_eq, List.replicate_succ,
      advanceAssign, advanceUpdate, collUpdate, InfoSelector.selects, Iter.Err, Iter.Close,
      zeroEntry]

/-! ## One document per key -/

/-- When `NewOpLogTailer` returns, it has left the collection untouched or has
inserted its fresh document into a collection that held none for the key. -/
theorem NewOpLogTailer_returned (d : Driver) (coll coll2 : Collection)
    (filterRegex label : String) (tailerInfo : opLogTailerInfo)
    (h : NewOpLogTailer d coll filterRegex label = Outcome.returned coll2 tailerInfo) :
    coll2 = coll ∨
    (queryCount coll { filterRegex := filterRegex, label := label } = 0 ∧
      coll2 = coll ++ [tailerInfo] ∧
      tailerInfo.FilterRegex = filterRegex ∧ tailerInfo.Label = label) := by
  by_cases hp : d.parseURL = false
  · simp [NewOpLogTailer, hp] at h
  by_cases hd : d.dialErr.isSome = true
  · simp [NewOpLogTailer, hp, hd] at h
  by_cases hc : d.countErr.isSome = true
  · simp [NewOpLogTailer, hp, hd, hc] at h
  by_cases hgt : 1 < queryCount coll { filterRegex := filterRegex, label := label }
  · simp [NewOpLogTailer, hp, hd, hc, buildOpLogTailerInfoSelector, hgt] at h
  by_cases h0 : queryCount coll { filterRegex := filterRegex, label := label } = 0
  · cases hi : d.insertErr with
    | some e =>
      have heq : NewOpLogTailer d coll filterRegex label =
          Outcome.returned coll
            { FilterRegex := filterRegex, StartReadingFromTime := shl64 d.nowUnix 32,
              Label := label } := by
        simp [NewOpLogTailer, hp, hd, hc, buildOpLogTailerInfoSelector, h0, collInsert, hi]
      rw [heq] at h
      cases h
      exact Or.inl rfl
    | none =>
      have heq : NewOpLogTailer d coll filterRegex label =
          Outcome.returned
            (coll ++ [{ FilterRegex := filterRegex, StartReadingFromTime := shl64 d.nowUnix 32,
                        Label := label }])
            { FilterRegex := filterRegex, StartReadingFromTime := shl64 d.nowUnix 32,
              Label := label } := by
        simp [NewOpLogTailer, hp, hd, hc, buildOpLogTailerInfoSelector, h0, collInsert, hi]
      rw [heq] at h
      cases h
      exact Or.inr ⟨h0, rfl, rfl, rfl⟩
  · have h1 : queryCount coll { filterRegex := filterRegex, label := label } = 1 := by omega
    cases hq : queryOne d.oneErr coll { filterRegex := filterRegex, label := label } with
    | none =>
      have heq : NewOpLogTailer d coll filterRegex label =
          Outcome.returned coll
            { FilterRegex := filterRegex, StartReadingFromTime := shl64 d.nowUnix 32,
              Label := label } := by
        simp [NewOpLogTailer, hp, hd, hc, buildOpLogTailerInfoSelector, h1, hq]
      rw [heq] at h
      cases h
      exact Or.inl rfl
    | some doc =>
      have heq : NewOpLogTailer d coll filterRegex label = Outcome.returned coll doc := by
        simp [NewOpLogTailer, hp, hd, hc, buildOpLogTailerInfoSelector, h1, hq]
      rw [heq] at h
      cases h
      exact Or.inl rfl

/-- An action of a run leaves the collection alone or is the `Update` of a
checkpoint-advance task. -/
theorem step_coll (fm : Fmt) (s s1 : State) (l : Label) (h : step fm s l = some s1) :
    s1.coll = s.coll ∨ s1.coll = (advanceUpdate s.tailerInfo s.coll).1 := by
  cases l with
  | nextEntry e =>
    simp only [step] at h
    split at h
    · cases h
      exact Or.inl rfl
    · cases h
  | updateFails i =>
    simp only [step] at h
    split at h
    · cases h
      exact Or.inl rfl
    · cases h
  | nextFalse err timeout decoded =>
    simp only [step] at h
    split at h
    · split at h
      · cases h
        exact Or.inl rfl
      · split at h <;> cases h <;> exact Or.inl rfl
    · cases h
  | launch =>
    simp only [step] at h
    split at h
    · cases h
      exact Or.inl rfl
    · cases h
      exact Or.inl rfl
    · cases h
  | task i =>
    simp only [step, stepTask] at h
    split at h
    · cases h
    · cases h
      exact Or.inl rfl
    · cases h
      exact Or.inr rfl
    · cases h
      exact Or.inl rfl
    · split at h
      · cases h
        exact Or.inl rfl
      · cases h
    · split at h
      · cases h
        exact Or.inl rfl
      · cases h

/-- C4: a collection holding at most one document for every pair of filter and label
still does after `NewOpLogTailer` returns, which inserts a document only when the count
for its key is zero; after a checkpoint-advance `Update` with any in-memory checkpoint,
which keeps the count of every key; and at the end of every run of `Start`. -/
theorem at_most_one_checkpoint_per_key (coll : Collection) (h : AtMostOnePerKey coll) :
    (∀ (d : Driver) (filterRegex label : String) (coll2 : Collection)
        (tailerInfo : opLogTailerInfo),
      NewOpLogTailer d coll filterRegex label = Outcome.returned coll2 tailerInfo →
        AtMostOnePerKey coll2 ∧
        (coll2 = coll ∨
          (queryCount coll { filterRegex := filterRegex, label := label } = 0 ∧
            coll2 = coll ++ [tailerInfo]))) ∧
    (∀ tailerInfo : opLogTailerInfo,
      AtMostOnePerKey (advanceUpdate tailerInfo coll).1 ∧
      ∀ sel : InfoSelector,
        queryCount (advanceUpdate tailerInfo coll).1 sel = queryCount coll sel) ∧
    (∀ (fm : Fmt) (s s2 : State) (ls : List Label),
      s.coll = coll → run fm s ls = some s2 → AtMostOnePerKey s2.coll) := by
  have hupd : ∀ (c : Collection) (ti : opLogTailerInfo),
      AtMostOnePerKey c → AtMostOnePerKey (advanceUpdate ti c).1 := by
    intro c ti hc f l
    rw [advanceUpdate_count]
    exact hc f l
  refine ⟨?_, ?_, ?_⟩
  · intro d filterRegex label coll2 tailerInfo hret
    rcases NewOpLogTailer_returned d coll coll2 filterRegex label tailerInfo hret with
      hc2 | ⟨h0, hc2, hf, hl⟩
    · rw [hc2]
      exact ⟨h, Or.inl rfl⟩
    · refine ⟨?_, Or.inr ⟨h0, hc2⟩⟩
      intro f l
      rw [hc2]
      by_cases hkey : f = filterRegex ∧ l = label
      · obtain ⟨rfl, rfl⟩ := hkey
        unfold queryCount at h0 ⊢
        simp only [List.filter_append, List.length_append, h0]
        exact Nat.le_trans (by simpa using List.length_filter_le _ [tailerInfo]) (Nat.le_refl 1)
      · have hnot : InfoSelector.selects { filterRegex := f, label := l } tailerInfo
            = false := by
          simp only [InfoSelector.selects, hf, hl, Bool.and_eq_false_imp, decide_eq_true_eq,
            decide_eq_false_iff_not]
          intro hf2 hl2
          exact hkey ⟨hf2.symm, hl2.symm⟩
        have := h f l
        unfold queryCount at this ⊢
        simpa [List.filter_append, List.filter_cons, hnot] using this
  · intro tailerInfo
    exact ⟨hupd coll tailerInfo h, fun sel => advanceUpdate_count tailerInfo coll sel⟩
  · intro fm s s2 ls hs hrun
    refine run_invariant fm (fun t => AtMostOnePerKey t.coll) ?_ ls s s2
      (by show AtMostOnePerKey s.coll; rw [hs]; exact h) hrun
    intro t l t1 hP ht
    rcases step_coll fm t t1 l ht with hc | hc
    · rw [hc]
      exact hP
    · rw [hc]
      exact hupd t.coll t.tailerInfo hP

/-- The collection with one checkpoint for ("f", "a") gets a second document on a start
for ("g", "b"), and then holds one per key. -/
theorem at_most_one_checkpoint_per_key_witness :
    AtMostOnePerKey
      [{ FilterRegex := "f", StartReadingFromTime := 3, Label := "a" },
       { FilterRegex := "g", StartReadingFromTime := shl64 7 32, Label := "b" }] := by
  have h0 : AtMostOnePerKey [{ FilterRegex := "f", StartReadingFromTime := 3, Label := "a" }] := by
    intro f l
    exact List.length_filter_le _ _
  exact ((at_most_one_checkpoint_per_key _ h0).1
    { parseURL := true, dialErr := none, countErr := none, insertErr := none
      oneErr := none, nowUnix := 7 } "g" "b"
    [{ FilterRegex := "f", StartReadingFromTime := 3, Label := "a" },
     { FilterRegex := "g", StartReadingFromTime := shl64 7 32, Label := "b" }]
    { FilterRegex := "g", StartReadingFromTime := shl64 7 32, Label := "b" }
    (by simp [NewOpLogTailer, buildOpLogTailerInfoSelector, queryCount, InfoSelector.selects,
      List.filter_cons, collInsert])).1

end oplogtailer
